import Mathlib

/-!
Shallow embedding of the MT4/MT5 file bridge (`tradingbot/mt_client.py`)
and proofs about its command channel, category pollers and reconciler.

Modelling conventions:
* JSON documents are association lists (Python `dict` preserves insertion
  order, and the snapshots under study have distinct keys).
* Numeric JSON values are `Rat`; no floating-point arithmetic is performed
  by the code fragments under verification, only storage and comparison.
* A file read is `Option α` with `none` for a missing or unreadable file.
* Wall-clock datetimes are `Nat` microseconds in the configured UTC clock.
-/

/-- Modelled from the spec: `try_load_json` (module `tradingbot.files`, not
under `src/`) returns the decoded JSON document, or an empty document when
the file is missing, unreadable or malformed (spec section 7 treats these as
transient I/O, "no new data"). -/
def try_load_json {α : Type} (read : Option (List α)) : List α :=
  read.getD []

/-- Content of one poller event raised on the `event_handler`. -/
structure OHLCData where
  opens : List Rat
  highs : List Rat
  lows : List Rat
  closes : List Rat
deriving DecidableEq

/-- Order type variants. Modelled from the spec (section 3): the order type
is a closed tagged variant; `get_order_type_from_str` (module
`tradingbot.order_type`, not under `src/`) parses the textual variant name,
with unrecognized strings a decode error (`unknown`). -/
inductive OrderType where
  | buy
  | sell
  | buyLimit
  | sellLimit
  | buyStop
  | sellStop
  | unknown
deriving DecidableEq

/-- Modelled from the spec: parse of the textual order type variant. -/
def get_order_type_from_str (s : String) : OrderType :=
  if s = "buy" then .buy
  else if s = "sell" then .sell
  else if s = "buylimit" then .buyLimit
  else if s = "selllimit" then .sellLimit
  else if s = "buystop" then .buyStop
  else if s = "sellstop" then .sellStop
  else .unknown

/-- Mirrors class `OrderPrice` of `tradingbot.order`. -/
structure OrderPrice where
  price : Rat
  stop_loss : Rat
  take_profit : Rat
deriving DecidableEq

/-- Mirrors class `MutableOrderDetails` of `tradingbot.order`. -/
structure MutableOrderDetails where
  prices : OrderPrice
  lots : Rat
  expiration : Nat := 0
deriving DecidableEq

/-- Mirrors class `ImmutableOrderDetails` of `tradingbot.order`. -/
structure ImmutableOrderDetails where
  symbol : String
  order_type : OrderType
  magic : Nat
  comment : String
deriving DecidableEq

/-- Mirrors class `Order` of `tradingbot.order`. -/
structure Order where
  mutableDetails : MutableOrderDetails
  immutableDetails : ImmutableOrderDetails
  ticket : Nat
  pnl : Rat
deriving DecidableEq

/-- Account info document: attribute name to numeric value. -/
abbrev AccountInfo := List (String × Rat)

/-- One market tick: the per-symbol entry of the market data snapshot. -/
structure Tick where
  bid : Rat
  ask : Rat
deriving DecidableEq

/-- Market data snapshot / cache: symbol keyed. -/
abbrev MarketData := List (String × Tick)

/-- Per `symbol_timeframe` entry of the bar data snapshot. -/
structure BarVal where
  timeArr : List Nat
  openArr : List Rat
  highArr : List Rat
  lowArr : List Rat
  closeArr : List Rat
  tickVolume : List Rat
deriving DecidableEq

/-- Bar data snapshot / cache: keyed by `symbol_timeframe`. -/
abbrev BarSnapshot := List (String × BarVal)

/-- Historical trades document: raw key-value records, stored wholesale. -/
abbrev HistTrades := List (String × String)

/-- A decoded message entry: `list(message.values())` of the source. -/
abbrev MsgContent := List String

/-- Messages snapshot: keyed by millisecond timestamp rendered as string. -/
abbrev MsgSnapshot := List (String × MsgContent)

/-- Typed events delivered to the `event_handler`. -/
inductive Event where
  | onMessage (content : MsgContent)
  | onTick (symbol : String) (bid ask : Rat)
  | onBarData (symbol timeframe : String) (time : List Nat)
      (ohlc : OHLCData) (volume : List Rat)
  | onOrderEvent (accountInfo : AccountInfo) (orders : List Order)
deriving DecidableEq

/-! ## Command channel (`send_command` and friends) -/

/-- `self.num_command_files = 50`. -/
def num_command_files : Nat := 50

/-- The serialized command line written whole into a slot file:
`f.write(f'<:...|...|...:>')` in `send_command`. -/
def serialize_command (id : Nat) (verb content : String) : String :=
  "<:" ++ toString id ++ "|" ++ verb ++ "|" ++ content ++ ":>"

/-- `self.command_id = (self.command_id + 1) % 100000` in `send_command`. -/
def next_command_id (id : Nat) : Nat :=
  (id + 1) % 100000

/-- The `for i in range(self.num_command_files)` scan of `send_command`:
starting at slot `i` with `n` slots left to inspect, return the first slot
index whose file does not exist. -/
def find_free_slot_aux (files : Nat → Option String) : Nat → Nat → Option Nat
  | _, 0 => none
  | i, n + 1 =>
    if (files i).isSome then find_free_slot_aux files (i + 1) n else some i

/-- First free slot among `Commands_0.txt .. Commands_49.txt`. -/
def find_free_slot (files : Nat → Option String) : Option Nat :=
  find_free_slot_aux files 0 num_command_files

/-- Creation of one slot file: slot `i` now holds `content`; every other
slot is untouched. -/
def write_slot (files : Nat → Option String) (i : Nat) (content : String) :
    Nat → Option String :=
  fun j => if j = i then some content else files j

/-- One pass of the inner `for` loop of `send_command`: claim the first
non-existing slot by creating it with the serialized command, or report
that every slot exists (`success = False`). -/
def attempt_scan (files : Nat → Option String) (id : Nat)
    (verb content : String) : Option (Nat × (Nat → Option String)) :=
  match find_free_slot files with
  | some i => some (i, write_slot files i (serialize_command id verb content))
  | none => none

/-- The `while now < end_time` retry loop of `send_command`. `filesAt k`
is the slot-file existence snapshot seen by the k-th scan (the MQL side
may delete files between scans); `delay` is the positive sleep between
scans, after which the clock is re-read. Returns the claimed slot and the
resulting slot files, or `none` when the deadline elapsed with no claim. -/
def send_command_loop (verb content : String) (id : Nat)
    (filesAt : Nat → Nat → Option String) (endTime delay : Nat)
    (hdelay : 0 < delay) (attempt now : Nat) :
    Option (Nat × (Nat → Option String)) :=
  if _h : now < endTime then
    match attempt_scan (filesAt attempt) id verb content with
    | some r => some r
    | none =>
      send_command_loop verb content id filesAt endTime delay hdelay
        (attempt + 1) (now + delay)
  else none
  termination_by endTime - now
  decreasing_by omega

/-- Embeds `MT_Client.send_command`: under the lock, advance the command
id, then retry the slot scan until the deadline. The first component is
the new `command_id` (the sequence number assigned to this command); the
second is the claimed slot with the written files, or `none` when the
command was silently dropped at the deadline. -/
def send_command (id : Nat) (filesAt : Nat → Nat → Option String)
    (endTime delay now : Nat) (hdelay : 0 < delay) (verb content : String) :
    Nat × Option (Nat × (Nat → Option String)) :=
  let newId := next_command_id id
  (newId, send_command_loop verb content newId filesAt endTime delay hdelay 0 now)

/-- Command-side rendering of an order for `send_open_order_command`. The
numeric fields are carried as their Python `str()` renderings, because the
source serializes with `','.join(str(p) for p in data)`. -/
structure OrderFieldsStr where
  symbol : String
  order_type : String
  lots : String
  price : String
  stop_loss : String
  take_profit : String
  magic : String
  comment : String
  expiration : String

/-- The payload built by `send_open_order_command`. -/
def open_order_payload (o : OrderFieldsStr) : String :=
  String.intercalate ","
    [o.symbol, o.order_type, o.lots, o.price, o.stop_loss, o.take_profit,
     o.magic, o.comment, o.expiration]

/-- Embeds `MT_Client.send_open_order_command`. -/
def send_open_order_command (id : Nat) (filesAt : Nat → Nat → Option String)
    (endTime delay now : Nat) (hdelay : 0 < delay) (o : OrderFieldsStr) :
    Nat × Option (Nat × (Nat → Option String)) :=
  send_command id filesAt endTime delay now hdelay "OPEN_ORDER"
    (open_order_payload o)

/-- The concrete order of the end-to-end spec scenario. -/
def sampleOpenOrder : OrderFieldsStr :=
  ⟨"EURUSD", "buy", "0.01", "0", "0", "0", "0", "test", "0"⟩

/-- The sequence numbers assigned by `n` consecutive `send_command` calls
starting from `command_id = id`: each call assigns `next_command_id` of
the previous value. -/
def assigned_ids (id : Nat) : Nat → List Nat
  | 0 => []
  | n + 1 => next_command_id id :: assigned_ids (next_command_id id) n

/-! ## Freshness of historical data -/

/-- Embeds `MT_Client._is_historical_data_up_to_date`. `now` is
`datetime.now(Config.utc_timezone)` and `lastDate` is
`string_to_date_utc(df.index[-1], ...)`, both as microseconds in the same
clock (the epoch is hour-aligned, so `minute`, `second` and `microsecond`
are the usual base-60/base-10^6 digits). -/
def is_historical_data_up_to_date (now lastDate : Nat) : Bool :=
  let td := (now / 60000000 % 60 % 5) * 60000000
      + (now / 1000000 % 60) * 1000000 + now % 1000000
  let rounded_now := now - td
  decide (rounded_now ≤ lastDate) && decide (lastDate < rounded_now + 300000000)

/-- The floor-to-5-minutes operation named by the spec: `now` rounded down
to the nearest 5-minute boundary (5 minutes = 300000000 microseconds). -/
def floor5min (t : Nat) : Nat :=
  300000000 * (t / 300000000)

/-! ## Market data poller and `get_bid_ask` -/

/-- Embeds `MT_Client.check_market_data`. The guard
`len(data) > 0 and data != self.market_data` is taken literally; inside,
for every symbol of the new snapshot whose entry is new or changed
(`symbol not in self.market_data or data[symbol] != self.market_data.get(symbol)`)
one `on_tick` is raised, then the cache is replaced wholesale. -/
def check_market_data (hasHandler : Bool) (read : Option MarketData)
    (cache : MarketData) : MarketData × List Event :=
  let data := try_load_json read
  if data.length > 0 ∧ data ≠ cache then
    let events :=
      if hasHandler then
        data.filterMap (fun p =>
          if (cache.lookup p.1).isNone ∨ some p.2 ≠ cache.lookup p.1 then
            some (Event.onTick p.1 p.2.bid p.2.ask)
          else none)
      else []
    (data, events)
  else (cache, [])

/-- Embeds `MT_Client.get_bid_ask`: the cached pair for a known symbol,
`(0, 0)` on `KeyError`. The source performs no assignment, so the cache
is taken by value and only the pair is returned. -/
def get_bid_ask (market_data : MarketData) (symbol : String) : Rat × Rat :=
  match market_data.lookup symbol with
  | some t => (t.bid, t.ask)
  | none => (0, 0)

/-! ## Bar data poller -/

/-- Embeds `MT_Client.check_bar_data`: same shape as the market data
poller, raising `on_bar_data` with the key split on the underscore into
symbol and timeframe (the source unpacks exactly two parts). -/
def check_bar_data (hasHandler : Bool) (read : Option BarSnapshot)
    (cache : BarSnapshot) : BarSnapshot × List Event :=
  let data := try_load_json read
  if data.length > 0 ∧ data ≠ cache then
    let events :=
      if hasHandler then
        data.filterMap (fun p =>
          if (cache.lookup p.1).isNone ∨ some p.2 ≠ cache.lookup p.1 then
            let parts := p.1.splitOn "_"
            some (Event.onBarData (parts.headD "") (parts.getD 1 "")
              p.2.timeArr ⟨p.2.openArr, p.2.highArr, p.2.lowArr, p.2.closeArr⟩
              p.2.tickVolume)
          else none)
      else []
    (data, events)
  else (cache, [])

/-! ## Historical trades poller -/

/-- Embeds `MT_Client.check_historical_trades`:
`self.historical_trades = try_load_json(...); return self.historical_trades`
— the cache is replaced wholesale by the decoded document, with no guard. -/
def check_historical_trades (read : Option HistTrades) (_cache : HistTrades) :
    HistTrades :=
  try_load_json read

/-! ## Messages poller -/

/-- The messages slice of the client state: the INFO and ERROR logs
(`self.messages`) and the high-water-mark `self._last_messages_millis`. -/
structure MsgState where
  infoMsgs : List MsgContent
  errorMsgs : List MsgContent
  lastMillis : Nat
deriving DecidableEq

/-- Decimal digit accumulation over the characters of a numeric string. -/
def chars_to_nat : List Char → Nat → Nat
  | [], acc => acc
  | c :: cs, acc => chars_to_nat cs (acc * 10 + (c.toNat - 48))

/-- `int(millis)` applied to a snapshot key; snapshot keys are decimal
digit strings (millisecond timestamps), on which this agrees with the
Python conversion. -/
def millis_to_nat (s : String) : Nat :=
  chars_to_nat s.data 0

/-- `sorted(data.items())` of `check_messages`: Python sorts the
`(key, value)` tuples, which on the distinct string keys of a dict is the
stable ascending sort by the string key; Python string comparison is
lexicographic by code point, which is the lexicographic order on the
underlying character lists. -/
def sorted_items (l : MsgSnapshot) : MsgSnapshot :=
  List.insertionSort (fun a b => a.1.data ≤ b.1.data) l

/-- Appending one processed entry: the high-water-mark becomes its
timestamp and `message_content[1:]` is appended to the ERROR log when
`'ERROR' in message_content`, to the INFO log otherwise. -/
def append_message (st : MsgState) (millis : Nat) (content : MsgContent) :
    MsgState :=
  if content.contains "ERROR" then
    { st with errorMsgs := st.errorMsgs ++ [content.drop 1], lastMillis := millis }
  else
    { st with infoMsgs := st.infoMsgs ++ [content.drop 1], lastMillis := millis }

/-- The `for millis, message in sorted(data.items())` loop of
`check_messages`: an entry is processed when
`int(millis) > self._last_messages_millis`, which also raises
`on_message` with the full `message_content` when a handler is set. -/
def process_messages (hasHandler : Bool) :
    MsgSnapshot → MsgState → MsgState × List Event
  | [], st => (st, [])
  | (millis, content) :: rest, st =>
    if st.lastMillis < millis_to_nat millis then
      let st1 := append_message st (millis_to_nat millis) content
      let r := process_messages hasHandler rest st1
      (r.1, (if hasHandler then [Event.onMessage content] else []) ++ r.2)
    else
      process_messages hasHandler rest st

/-- Embeds `MT_Client.check_messages`. The guard
`len(data) > 0 and data != self.messages` compares the millis-keyed raw
dict with the INFO/ERROR-keyed cache dict; on a well-formed snapshot
those never compare equal, so the guard reduces to nonemptiness. -/
def check_messages (hasHandler : Bool) (read : Option MsgSnapshot)
    (st : MsgState) : MsgState × List Event :=
  let data := try_load_json read
  if data.length > 0 then process_messages hasHandler (sorted_items data) st
  else (st, [])

/-- Ascending sort by the numeric timestamp value, used to state in what
order the claim expects entries to be processed. -/
def numeric_sort (l : MsgSnapshot) : MsgSnapshot :=
  List.insertionSort (fun a b => millis_to_nat a.1 ≤ millis_to_nat b.1) l

/-! ## Open orders reconciler -/

/-- One raw order record of the orders snapshot. -/
structure RawOrder where
  open_price : Rat
  sl : Rat
  tp : Rat
  lots : Rat
  symbol : String
  otype : String
  magic : Nat
  comment : String
  pnl : Rat
deriving DecidableEq

/-- Embeds `MT_Client._transform_json_orders_to_orders`. -/
def transform_json_orders_to_orders (json_orders : List (Nat × RawOrder)) :
    List Order :=
  json_orders.map (fun p =>
    Order.mk
      { prices := OrderPrice.mk p.2.open_price p.2.sl p.2.tp, lots := p.2.lots }
      (ImmutableOrderDetails.mk p.2.symbol
        (get_order_type_from_str p.2.otype) p.2.magic p.2.comment)
      p.1 p.2.pnl)

/-- Modelled from the spec: Python `Order.__eq__` (module
`tradingbot.order`, not under `src/`). Spec section 4.3 describes the
reconciliation as the symmetric difference of the ticket sets, so order
equality — hence the membership tests `order not in orders` — compares by
ticket. -/
def order_eq (a b : Order) : Bool :=
  a.ticket == b.ticket

/-- Python membership `order in orders` under `order_eq`. -/
def order_in (o : Order) (l : List Order) : Bool :=
  l.any (order_eq o)

/-- The decoded orders snapshot document. For each of the two required
keys: `none` means the key is missing, `some none` means the key is
present but its value is not a map (the `isinstance(..., Dict)` checks
fail), `some (some m)` is a decoded map. `otherKeys` records whether the
document holds any further entries (for the `len(data) > 0` guard). -/
structure OrdersDoc where
  ordersField : Option (Option (List (Nat × RawOrder)))
  accountField : Option (Option AccountInfo)
  otherKeys : Bool

/-- The orders slice of the client state. -/
structure OrdersState where
  open_orders : List Order
  account_info : AccountInfo
deriving DecidableEq

/-- Embeds `MT_Client.check_open_orders`. Returns the new state, the
raised events, and whether the mirror file `Orders_Stored.json` was
written. When both keys decode to maps the guard holds: `len(data) > 0`
is implied, and `data_orders != self.open_orders` compares a dict with a
list, which in Python is always true. -/
def check_open_orders (hasHandler : Bool) (doc : OrdersDoc)
    (st : OrdersState) : OrdersState × List Event × Bool :=
  match doc.ordersField, doc.accountField with
  | some (some data_orders), some (some data_account_info) =>
    let orders := transform_json_orders_to_orders data_orders
    let newEvent :=
      st.open_orders.any (fun o => !(order_in o orders))
        || orders.any (fun o => !(order_in o st.open_orders))
    let st1 : OrdersState := ⟨orders, data_account_info⟩
    let events :=
      if newEvent && hasHandler then
        [Event.onOrderEvent data_account_info orders]
      else []
    (st1, events, true)
  | _, _ => (st, [], false)

/-- A concrete raw order record, used by witnesses. -/
def sampleRaw : RawOrder :=
  ⟨1, 2, 3, 1, "EURUSD", "buy", 10, "test", 0⟩

/-! ## Claims about freshness, `get_bid_ask`, idempotent market polls -/

/-- C7: the freshness check accepts exactly the half-open 5-minute bucket
of `now`: it returns true iff the last row timestamp lies in
`[floor5min now, floor5min now + 5min)`; the right endpoint is rejected
and the left endpoint is accepted. -/
theorem is_up_to_date_iff_in_bucket (now lastDate : Nat) :
    (is_historical_data_up_to_date now lastDate = true ↔
      floor5min now ≤ lastDate ∧ lastDate < floor5min now + 300000000) ∧
    is_historical_data_up_to_date now (floor5min now + 300000000) = false ∧
    is_historical_data_up_to_date now (floor5min now) = true := by
  simp only [is_historical_data_up_to_date, floor5min, Bool.and_eq_true,
    decide_eq_true_eq, Bool.and_eq_false_iff, decide_eq_false_iff_not]
  omega

/-- C10: `get_bid_ask` returns `(0, 0)` for a symbol absent from the
market data cache, and the cached `(bid, ask)` pair for a present one;
being a pure read, it leaves the cache untouched. -/
theorem get_bid_ask_spec (market_data : MarketData) (symbol : String) :
    (market_data.lookup symbol = none →
      get_bid_ask market_data symbol = (0, 0)) ∧
    (∀ t : Tick, market_data.lookup symbol = some t →
      get_bid_ask market_data symbol = (t.bid, t.ask)) := by
  constructor
  · intro h
    simp [get_bid_ask, h]
  · intro t h
    simp [get_bid_ask, h]

/-- Witness for C10 at a one-symbol cache. -/
theorem get_bid_ask_spec_witness :
    get_bid_ask [("EURUSD", Tick.mk 2 3)] "GBPUSD" = (0, 0) ∧
    get_bid_ask [("EURUSD", Tick.mk 2 3)] "EURUSD" = (2, 3) :=
  ⟨(get_bid_ask_spec [("EURUSD", Tick.mk 2 3)] "GBPUSD").1 (by decide),
   (get_bid_ask_spec [("EURUSD", Tick.mk 2 3)] "EURUSD").2 (Tick.mk 2 3)
     (by decide)⟩

/-- C6: polling market data twice with the same decoded snapshot raises
no tick event on the second poll and leaves the cache at its value after
the first poll — a rewrite of the same values is a no-op. -/
theorem check_market_data_idempotent (hasHandler : Bool)
    (read : Option MarketData) (cache : MarketData) :
    check_market_data hasHandler read
      (check_market_data hasHandler read cache).1 =
    ((check_market_data hasHandler read cache).1, []) := by
  by_cases hg : (try_load_json read).length > 0 ∧ try_load_json read ≠ cache
  · have h1 : (check_market_data hasHandler read cache).1 = try_load_json read := by
      simp only [check_market_data]
      rw [if_pos hg]
    rw [h1]
    simp only [check_market_data]
    rw [if_neg (by simp)]
  · have h1 : (check_market_data hasHandler read cache).1 = cache := by
      simp only [check_market_data]
      rw [if_neg hg]
    rw [h1]
    simp only [check_market_data]
    rw [if_neg hg]

/-- Counterexample to C8 as stated: the historical trades poller does not
keep its previous cache on a missing snapshot file — it replaces the cache
wholesale, so a nonempty prior cache becomes the empty document. -/
theorem check_historical_trades_drops_cache :
    check_historical_trades none [("1", "trade")] = ([] : HistTrades) ∧
    ([] : HistTrades) ≠ [("1", "trade")] := by
  constructor
  · rfl
  · decide

/-- C8 amended: on a missing, unreadable or empty snapshot, the messages,
market data and bar data pollers return their previous cache unchanged
and raise no event; the historical trades poller instead replaces its
cache wholesale with the decoded document, so its cache becomes empty. -/
theorem pollers_on_empty_snapshot (hasHandler : Bool)
    (rm : Option MsgSnapshot) (rd : Option MarketData)
    (rb : Option BarSnapshot) (rt : Option HistTrades)
    (sm : MsgState) (cd : MarketData) (cb : BarSnapshot) (ct : HistTrades)
    (hm : rm = none ∨ rm = some []) (hd : rd = none ∨ rd = some [])
    (hb : rb = none ∨ rb = some []) (ht : rt = none ∨ rt = some []) :
    check_messages hasHandler rm sm = (sm, []) ∧
    check_market_data hasHandler rd cd = (cd, []) ∧
    check_bar_data hasHandler rb cb = (cb, []) ∧
    check_historical_trades rt ct = ([] : HistTrades) := by
  refine ⟨?_, ?_, ?_, ?_⟩
  · rcases hm with h | h <;> simp [h, check_messages, try_load_json]
  · rcases hd with h | h <;> simp [h, check_market_data, try_load_json]
  · rcases hb with h | h <;> simp [h, check_bar_data, try_load_json]
  · rcases ht with h | h <;> simp [h, check_historical_trades, try_load_json]

/-- Witness for the amended C8 at concrete caches and missing files. -/
theorem pollers_on_empty_snapshot_witness :
    check_messages true none (MsgState.mk [["a"]] [] 7) =
      (MsgState.mk [["a"]] [] 7, []) ∧
    check_market_data true none [("EURUSD", Tick.mk 2 3)] =
      ([("EURUSD", Tick.mk 2 3)], []) ∧
    check_bar_data true (some []) [("EURUSD_M5", BarVal.mk [] [] [] [] [] [])] =
      ([("EURUSD_M5", BarVal.mk [] [] [] [] [] [])], []) ∧
    check_historical_trades none [("1", "trade")] = ([] : HistTrades) :=
  pollers_on_empty_snapshot true none none (some []) none
    (MsgState.mk [["a"]] [] 7) [("EURUSD", Tick.mk 2 3)]
    [("EURUSD_M5", BarVal.mk [] [] [] [] [] [])] [("1", "trade")]
    (Or.inl rfl) (Or.inl rfl) (Or.inr rfl) (Or.inl rfl)

/-- C9: when the orders snapshot misses the `orders` key or the
`account_info` key, or either is present but not a map, the poll is a
no-op: the cached open orders and account info keep their values, no
event fires and the mirror file is not written. -/
theorem check_open_orders_malformed (hasHandler : Bool) (doc : OrdersDoc)
    (st : OrdersState)
    (hbad : doc.ordersField = none ∨ doc.ordersField = some none ∨
      doc.accountField = none ∨ doc.accountField = some none) :
    check_open_orders hasHandler doc st = (st, [], false) := by
  unfold check_open_orders
  rcases hdoc : doc.ordersField with _ | ho
  · rfl
  · rcases ho with _ | m
    · rfl
    · rcases hacc : doc.accountField with _ | ha
      · rfl
      · rcases ha with _ | a
        · rfl
        · rcases hbad with h | h | h | h <;>
            first
            | exact absurd (hdoc ▸ h) (by simp)
            | exact absurd (hacc ▸ h) (by simp)

/-- Witness for C9 at a document whose `orders` value is not a map. -/
theorem check_open_orders_malformed_witness :
    check_open_orders true (OrdersDoc.mk (some none) none true)
      (OrdersState.mk [] [("balance", 100)]) =
      (OrdersState.mk [] [("balance", 100)], [], false) :=
  check_open_orders_malformed true (OrdersDoc.mk (some none) none true)
    (OrdersState.mk [] [("balance", 100)]) (Or.inr (Or.inl rfl))

/-! ## Command channel lemmas -/

/-- The slot scan returns the least free index: if every slot in
`[start, i)` exists, slot `i` is free and `i` lies within the scanned
window, the scan starting at `start` stops exactly at `i`. -/
theorem find_free_slot_aux_eq_some (files : Nat → Option String) :
    ∀ (n start i : Nat), start ≤ i → i < start + n → files i = none →
    (∀ j, start ≤ j → j < i → (files j).isSome) →
    find_free_slot_aux files start n = some i := by
  intro n
  induction n with
  | zero => intro start i h1 h2; omega
  | succ n ih =>
    intro start i h1 h2 hfree hlow
    unfold find_free_slot_aux
    by_cases hs : (files start).isSome
    · rw [if_pos hs]
      have hne : start ≠ i := by
        intro he
        rw [he, hfree] at hs
        simp at hs
      exact ih (start + 1) i (by omega) (by omega) hfree
        (fun j hj1 hj2 => hlow j (by omega) hj2)
    · rw [if_neg hs]
      have : start = i := by
        by_contra hne
        exact hs (hlow start le_rfl (by omega))
      rw [this]

/-- If every scanned slot exists, the scan finds nothing. -/
theorem find_free_slot_aux_eq_none (files : Nat → Option String) :
    ∀ (n start : Nat), (∀ j, start ≤ j → j < start + n → (files j).isSome) →
    find_free_slot_aux files start n = none := by
  intro n
  induction n with
  | zero => intro start _; rfl
  | succ n ih =>
    intro start hall
    unfold find_free_slot_aux
    rw [if_pos (hall start le_rfl (by omega))]
    exact ih (start + 1) (fun j hj1 hj2 => hall j (by omega) (by omega))

/-- C3: if all 50 slot files exist at every rescan, `send_command` writes
no slot file: the retry loop runs out the deadline and the call returns
with no claimed slot — no error and no success signal for the caller. -/
theorem send_command_all_slots_full (id : Nat)
    (filesAt : Nat → Nat → Option String) (endTime delay now : Nat)
    (hdelay : 0 < delay) (verb content : String)
    (hfull : ∀ k i, i < num_command_files → (filesAt k i).isSome) :
    (send_command id filesAt endTime delay now hdelay verb content).2 = none := by
  show send_command_loop verb content (next_command_id id) filesAt endTime
    delay hdelay 0 now = none
  suffices h : ∀ m attempt now, endTime - now = m →
      send_command_loop verb content (next_command_id id) filesAt endTime
        delay hdelay attempt now = none by
    exact h (endTime - now) 0 now rfl
  intro m
  induction m using Nat.strong_induction_on with
  | _ m ih =>
    intro attempt now hm
    unfold send_command_loop
    by_cases hlt : now < endTime
    · rw [dif_pos hlt]
      have hscan : attempt_scan (filesAt attempt) (next_command_id id)
          verb content = none := by
        unfold attempt_scan find_free_slot
        rw [find_free_slot_aux_eq_none (filesAt attempt) num_command_files 0
          (fun j _ hj2 => hfull attempt j (by omega))]
      rw [hscan]
      exact ih (endTime - (now + delay)) (by omega) (attempt + 1)
        (now + delay) rfl
    · rw [dif_neg hlt]

/-- Witness for C3: two always-occupied slots polled past a deadline. -/
theorem send_command_all_slots_full_witness :
    (send_command 0 (fun _ _ => some "busy") 12 5 0 (by norm_num)
      "OPEN_ORDER" "x").2 = none :=
  send_command_all_slots_full 0 (fun _ _ => some "busy") 12 5 0 (by norm_num)
    "OPEN_ORDER" "x" (fun _ _ _ => rfl)

/-- Serialization of the end-to-end OPEN_ORDER scenario command. -/
theorem serialize_open_order_sample (s : Nat) :
    serialize_command s "OPEN_ORDER" (open_order_payload sampleOpenOrder) =
    "<:" ++ toString s ++ "|OPEN_ORDER|EURUSD,buy,0.01,0,0,0,0,test,0:>" := by
  have hp : open_order_payload sampleOpenOrder =
      "EURUSD,buy,0.01,0,0,0,0,test,0" := by decide
  rw [hp]
  unfold serialize_command
  simp only [String.append_assoc]
  congr 2

/-- C1: when some slot file does not exist at scan time, `send_command`
claims exactly the lowest-indexed free slot, creating that one file with
the single serialized line and touching no other slot; in particular the
OPEN_ORDER scenario with the sample payload produces exactly one slot
file with content `<:{seq}|OPEN_ORDER|EURUSD,buy,0.01,0,0,0,0,test,0:>`. -/
theorem send_command_claims_lowest_free_slot (id : Nat)
    (filesAt : Nat → Nat → Option String) (endTime delay now : Nat)
    (hdelay : 0 < delay) (verb content : String) (i : Nat)
    (hnow : now < endTime) (hi : i < num_command_files)
    (hfree : filesAt 0 i = none)
    (hlow : ∀ j, j < i → (filesAt 0 j).isSome) :
    (send_command id filesAt endTime delay now hdelay verb content).2 =
      some (i, write_slot (filesAt 0) i
        (serialize_command (next_command_id id) verb content)) ∧
    write_slot (filesAt 0) i (serialize_command (next_command_id id) verb content) i
      = some (serialize_command (next_command_id id) verb content) ∧
    (∀ j, j ≠ i →
      write_slot (filesAt 0) i (serialize_command (next_command_id id) verb content) j
        = filesAt 0 j) ∧
    open_order_payload sampleOpenOrder = "EURUSD,buy,0.01,0,0,0,0,test,0" ∧
    (send_open_order_command id filesAt endTime delay now hdelay sampleOpenOrder).2 =
      some (i, write_slot (filesAt 0) i
        ("<:" ++ toString (next_command_id id)
          ++ "|OPEN_ORDER|EURUSD,buy,0.01,0,0,0,0,test,0:>")) := by
  have hmain : ∀ v c : String,
      (send_command id filesAt endTime delay now hdelay v c).2 =
      some (i, write_slot (filesAt 0) i
        (serialize_command (next_command_id id) v c)) := by
    intro v c
    show send_command_loop v c (next_command_id id) filesAt endTime delay
      hdelay 0 now = _
    have hscan : attempt_scan (filesAt 0) (next_command_id id) v c =
        some (i, write_slot (filesAt 0) i
          (serialize_command (next_command_id id) v c)) := by
      unfold attempt_scan find_free_slot
      rw [find_free_slot_aux_eq_some (filesAt 0) num_command_files 0 i
        (Nat.zero_le i) (by omega) hfree (fun j _ hj => hlow j hj)]
    unfold send_command_loop
    rw [dif_pos hnow, hscan]
  refine ⟨hmain verb content, ?_, ?_, by decide, ?_⟩
  · simp [write_slot]
  · intro j hj
    simp [write_slot, hj]
  · show (send_command id filesAt endTime delay now hdelay "OPEN_ORDER"
      (open_order_payload sampleOpenOrder)).2 = _
    rw [hmain "OPEN_ORDER" (open_order_payload sampleOpenOrder),
      serialize_open_order_sample]

/-- Witness for C1: all 50 slots free, slot 0 is claimed. -/
theorem send_command_claims_lowest_free_slot_witness :
    (send_command 0 (fun _ _ => none) 1 1 0 Nat.one_pos "OPEN_ORDER"
      (open_order_payload sampleOpenOrder)).2 =
      some (0, write_slot (fun _ => none) 0
        (serialize_command (next_command_id 0) "OPEN_ORDER"
          (open_order_payload sampleOpenOrder))) :=
  (send_command_claims_lowest_free_slot 0 (fun _ _ => none) 1 1 0
    Nat.one_pos "OPEN_ORDER" (open_order_payload sampleOpenOrder) 0
    (by decide) (by decide) rfl (fun j hj => absurd hj (Nat.not_lt_zero j))).1

/-- Heads of the assigned-sequence list: the first of `n ≥ 1` consecutive
sends from `command_id = j` is assigned `next_command_id j`. -/
theorem assigned_ids_head (j n : Nat) (h : 0 < n) :
    (assigned_ids j n).getD 0 0 = next_command_id j := by
  cases n with
  | zero => omega
  | succ n => rfl

/-- Consecutive assigned sequence numbers differ by one modulo 100000. -/
theorem assigned_ids_step :
    ∀ (n j k : Nat), k + 1 < n →
    (assigned_ids j n).getD (k + 1) 0 =
      ((assigned_ids j n).getD k 0 + 1) % 100000 := by
  intro n
  induction n with
  | zero => intro j k hk; omega
  | succ n ih =>
    intro j k hk
    cases k with
    | zero =>
      show (assigned_ids (next_command_id j) n).getD 0 0 =
        (next_command_id j + 1) % 100000
      rw [assigned_ids_head (next_command_id j) n (by omega)]
      rfl
    | succ k =>
      show (assigned_ids (next_command_id j) n).getD (k + 1) 0 =
        ((assigned_ids (next_command_id j) n).getD k 0 + 1) % 100000
      exact ih (next_command_id j) k (by omega)

/-- C2: every `send_command` call performs exactly one increment of the
sequence counter modulo 100000, and after a reset (`command_id = 0`) the
sequence numbers assigned to consecutive sends start at 1 and each equals
the previous one plus one modulo 100000. -/
theorem send_command_sequence_numbers (id : Nat)
    (filesAt : Nat → Nat → Option String) (endTime delay now : Nat)
    (hdelay : 0 < delay) (verb content : String) :
    (send_command id filesAt endTime delay now hdelay verb content).1 =
      (id + 1) % 100000 ∧
    (∀ n, 0 < n → (assigned_ids 0 n).getD 0 0 = 1) ∧
    (∀ n k, k + 1 < n →
      (assigned_ids 0 n).getD (k + 1) 0 =
        ((assigned_ids 0 n).getD k 0 + 1) % 100000) := by
  refine ⟨rfl, ?_, ?_⟩
  · intro n hn
    rw [assigned_ids_head 0 n hn]
    rfl
  · intro n k hk
    exact assigned_ids_step n 0 k hk

/-- Witness for C2: the third of four sends after a reset is assigned the
successor modulo 100000 of the second. -/
theorem send_command_sequence_numbers_witness :
    (send_command 7 (fun _ _ => none) 1 1 0 Nat.one_pos "A" "b").1 =
      (7 + 1) % 100000 ∧
    (assigned_ids 0 4).getD 0 0 = 1 ∧
    (assigned_ids 0 4).getD 2 0 = ((assigned_ids 0 4).getD 1 0 + 1) % 100000 :=
  ⟨(send_command_sequence_numbers 7 (fun _ _ => none) 1 1 0 Nat.one_pos
      "A" "b").1,
   (send_command_sequence_numbers 7 (fun _ _ => none) 1 1 0 Nat.one_pos
      "A" "b").2.1 4 (by decide),
   (send_command_sequence_numbers 7 (fun _ _ => none) 1 1 0 Nat.one_pos
      "A" "b").2.2 4 1 (by decide)⟩

/-- The reconciler raises its flag whenever some ticket is present on one
side of the diff only. -/
theorem new_event_of_ticket_diff (old new : List Order)
    (hdiff : ∃ t : Nat, new.any (fun o => o.ticket == t) ≠
      old.any (fun o => o.ticket == t)) :
    (old.any (fun o => !(order_in o new))
      || new.any (fun o => !(order_in o old))) = true := by
  obtain ⟨t, ht⟩ := hdiff
  rw [Bool.or_eq_true]
  cases hb : new.any (fun o => o.ticket == t) with
  | false =>
    rw [hb] at ht
    have hOld : old.any (fun o => o.ticket == t) = true := by
      cases hc : old.any (fun o => o.ticket == t)
      · exact absurd (hc ▸ rfl) ht
      · rfl
    left
    rw [List.any_eq_true] at hOld ⊢
    obtain ⟨p, hp, hpt⟩ := hOld
    refine ⟨p, hp, ?_⟩
    rw [List.any_eq_false] at hb
    simp only [Bool.not_eq_true', order_in, order_eq]
    rw [List.any_eq_false]
    intro o ho
    have h1 : p.ticket = t := by simpa using hpt
    have h2 : ¬ o.ticket = t := by simpa using hb o ho
    simp only [order_eq, beq_iff_eq, beq_eq_false_iff_ne, ne_eq]
    omega
  | true =>
    have hOld : old.any (fun o => o.ticket == t) = false := by
      cases hc : old.any (fun o => o.ticket == t)
      · rfl
      · exact absurd (hb.trans hc.symm) ht
    right
    rw [List.any_eq_true] at hb ⊢
    obtain ⟨p, hp, hpt⟩ := hb
    refine ⟨p, hp, ?_⟩
    rw [List.any_eq_false] at hOld
    simp only [Bool.not_eq_true', order_in, order_eq]
    rw [List.any_eq_false]
    intro o ho
    have h1 : p.ticket = t := by simpa using hpt
    have h2 : ¬ o.ticket = t := by simpa using hOld o ho
    simp only [order_eq, beq_iff_eq, beq_eq_false_iff_ne, ne_eq]
    omega

/-- C4: on a well-formed orders snapshot whose ticket set differs from
the cached one (a ticket appeared, disappeared, or both), exactly one
aggregated `on_order_event` fires, carrying the full new order list and
the new account info — never one event per changed order; the cache is
updated to the decoded snapshot. -/
theorem check_open_orders_one_aggregated_event (doc : OrdersDoc)
    (st : OrdersState) (m : List (Nat × RawOrder)) (a : AccountInfo)
    (hord : doc.ordersField = some (some m))
    (hacc : doc.accountField = some (some a))
    (hdiff : ∃ t : Nat,
      (transform_json_orders_to_orders m).any (fun o => o.ticket == t) ≠
        st.open_orders.any (fun o => o.ticket == t)) :
    (check_open_orders true doc st).2.1 =
      [Event.onOrderEvent a (transform_json_orders_to_orders m)] ∧
    (check_open_orders true doc st).1 =
      OrdersState.mk (transform_json_orders_to_orders m) a := by
  have hnew := new_event_of_ticket_diff st.open_orders
    (transform_json_orders_to_orders m) hdiff
  simp only [check_open_orders, hord, hacc, hnew, Bool.and_true, if_pos]
  constructor <;> trivial

/-- Witness for C4: ticket 7 disappears and ticket 9 appears in the same
poll; exactly one aggregated event fires containing both changes. -/
theorem check_open_orders_one_aggregated_event_witness :
    (check_open_orders true
      (OrdersDoc.mk (some (some [(9, sampleRaw)]))
        (some (some [("balance", 100)])) false)
      (OrdersState.mk (transform_json_orders_to_orders [(7, sampleRaw)]) [])).2.1
      = [Event.onOrderEvent [("balance", 100)]
          (transform_json_orders_to_orders [(9, sampleRaw)])] ∧
    (check_open_orders true
      (OrdersDoc.mk (some (some [(9, sampleRaw)]))
        (some (some [("balance", 100)])) false)
      (OrdersState.mk (transform_json_orders_to_orders [(7, sampleRaw)]) [])).1
      = OrdersState.mk (transform_json_orders_to_orders [(9, sampleRaw)])
          [("balance", 100)] :=
  check_open_orders_one_aggregated_event
    (OrdersDoc.mk (some (some [(9, sampleRaw)]))
      (some (some [("balance", 100)])) false)
    (OrdersState.mk (transform_json_orders_to_orders [(7, sampleRaw)]) [])
    [(9, sampleRaw)] [("balance", 100)] rfl rfl ⟨9, by decide⟩

/-! ## Messages poller claims -/

/-- Counterexample to C5 as stated: `sorted(data.items())` sorts the
string keys lexicographically, so with keys of different digit lengths
the entry with timestamp 10 is visited before the one with timestamp 9;
processing 10 first raises the high-water-mark to 10 and entry 9 —
although its timestamp exceeds the initial high-water-mark 0 — is
silently skipped instead of being processed first. -/
theorem check_messages_drops_unequal_length_key :
    (check_messages true (some [("9", ["INFO", "m9"]), ("10", ["INFO", "m10"])])
      (MsgState.mk [] [] 0)).2 = [Event.onMessage ["INFO", "m10"]] ∧
    millis_to_nat "9" > 0 ∧
    Event.onMessage ["INFO", "m9"] ∉
      (check_messages true (some [("9", ["INFO", "m9"]), ("10", ["INFO", "m10"])])
        (MsgState.mk [] [] 0)).2 ∧
    (check_messages true (some [("9", ["INFO", "m9"]), ("10", ["INFO", "m10"])])
      (MsgState.mk [] [] 0)).1.lastMillis = 10 := by
  decide

/-- Congruence for `orderedInsert`: relations agreeing on the inserted
element against every list element insert identically. -/
theorem orderedInsert_congr {α : Type} (r s : α → α → Prop)
    [DecidableRel r] [DecidableRel s] (a : α) :
    ∀ l : List α, (∀ b ∈ l, (r a b ↔ s a b)) →
    List.orderedInsert r a l = List.orderedInsert s a l := by
  intro l
  induction l with
  | nil => intro _; rfl
  | cons b t ih =>
    intro h
    simp only [List.orderedInsert]
    by_cases hr : r a b
    · rw [if_pos hr, if_pos ((h b (by simp)).mp hr)]
    · rw [if_neg hr, if_neg (fun hs => hr ((h b (by simp)).mpr hs)),
        ih (fun c hc => h c (by simp [hc]))]

/-- Congruence for `insertionSort`: relations agreeing on the elements of
the list sort it identically. -/
theorem insertionSort_congr {α : Type} (r s : α → α → Prop)
    [DecidableRel r] [DecidableRel s] :
    ∀ l : List α, (∀ a ∈ l, ∀ b ∈ l, (r a b ↔ s a b)) →
    List.insertionSort r l = List.insertionSort s l := by
  intro l
  induction l with
  | nil => intro _; rfl
  | cons a t ih =>
    intro h
    simp only [List.insertionSort]
    rw [ih (fun x hx y hy => h x (by simp [hx]) y (by simp [hy]))]
    refine orderedInsert_congr r s a _ (fun b hb => ?_)
    have hbt : b ∈ t := ((List.perm_insertionSort
      (fun a b => s a b) t).mem_iff).mp hb
    exact h a (by simp) b (by simp [hbt])

/-- Processing a list of entries strictly ascending in numeric timestamp:
exactly the entries above the incoming high-water-mark are processed, in
list order; events fire in that order, the logs extend in that order, and
the final high-water-mark is the running maximum. -/
theorem process_messages_sorted :
    ∀ (l : MsgSnapshot) (st : MsgState),
    l.Pairwise (fun a b => millis_to_nat a.1 < millis_to_nat b.1) →
    process_messages true l st =
      (MsgState.mk
        (st.infoMsgs ++
          ((l.filter (fun p => st.lastMillis < millis_to_nat p.1)).filter
            (fun p => !(p.2.contains "ERROR"))).map (fun p => p.2.drop 1))
        (st.errorMsgs ++
          ((l.filter (fun p => st.lastMillis < millis_to_nat p.1)).filter
            (fun p => p.2.contains "ERROR")).map (fun p => p.2.drop 1))
        ((l.filter (fun p => st.lastMillis < millis_to_nat p.1)).foldl
          (fun m p => max m (millis_to_nat p.1)) st.lastMillis),
       (l.filter (fun p => st.lastMillis < millis_to_nat p.1)).map
         (fun p => Event.onMessage p.2)) := by
  intro l
  induction l with
  | nil =>
    intro st _
    simp [process_messages]
  | cons hd tl ih =>
    intro st hpw
    rw [List.pairwise_cons] at hpw
    obtain ⟨hall, htl⟩ := hpw
    obtain ⟨millis, content⟩ := hd
    have hall' : ∀ p ∈ tl, millis_to_nat millis < millis_to_nat p.1 := by
      intro p hp
      simpa using hall p hp
    by_cases hgt : st.lastMillis < millis_to_nat millis
    · have hst1 : (append_message st (millis_to_nat millis) content).lastMillis
          = millis_to_nat millis := by
        unfold append_message
        split <;> rfl
      have hf1 : tl.filter (fun p =>
          (append_message st (millis_to_nat millis) content).lastMillis
            < millis_to_nat p.1) = tl := by
        rw [List.filter_eq_self]
        intro p hp
        rw [hst1]
        simpa using hall' p hp
      have hfc : ((millis, content) :: tl).filter
          (fun p => st.lastMillis < millis_to_nat p.1)
          = (millis, content) :: tl := by
        rw [List.filter_eq_self]
        intro p hp
        rcases List.mem_cons.mp hp with h | h
        · rw [h]
          simpa using hgt
        · have h3 := hall' p h
          simp only [decide_eq_true_eq]
          omega
      simp only [process_messages]
      rw [if_pos hgt, ih (append_message st (millis_to_nat millis) content) htl,
        hf1, hfc]
      have hmax : st.lastMillis ⊔ millis_to_nat millis = millis_to_nat millis :=
        Nat.max_eq_right (Nat.le_of_lt hgt)
      by_cases hc : "ERROR" ∈ content <;>
        simp [append_message, hc, hmax, List.filter_cons, List.append_assoc]
    · simp only [process_messages]
      rw [if_neg hgt, ih st htl]
      have hfc : ((millis, content) :: tl).filter
          (fun p => st.lastMillis < millis_to_nat p.1)
          = tl.filter (fun p => st.lastMillis < millis_to_nat p.1) := by
        rw [List.filter_cons_of_neg]
        simpa using hgt
      rw [hfc]

/-- Strings with equal character data are equal. -/
theorem string_eq_of_data_eq {s t : String} (h : s.data = t.data) : s = t := by
  cases s with
  | mk d1 =>
    cases t with
    | mk d2 => exact congrArg String.mk h

/-- C5 amended: `check_messages` visits entries in ascending lexicographic
order of their string timestamp keys and processes an entry iff its
numeric timestamp exceeds the running high-water-mark. Whenever the
lexicographic key order agrees with the numeric timestamp order — as for
the equal-length keys of real millisecond timestamps, or the scenario
`[5,3,9]` — this processes exactly the entries above the initial
high-water-mark in ascending numeric order, raising their events and
appending to the INFO/ERROR logs in that order, and leaves the
high-water-mark at the maximum processed timestamp. -/
theorem check_messages_numeric_replay (snapshot : MsgSnapshot) (st : MsgState)
    (hne : snapshot ≠ [])
    (hnodup : (snapshot.map Prod.fst).Nodup)
    (hcoh : ∀ a ∈ snapshot, ∀ b ∈ snapshot,
      (a.1.data ≤ b.1.data ↔ millis_to_nat a.1 ≤ millis_to_nat b.1)) :
    check_messages true (some snapshot) st =
      (MsgState.mk
        (st.infoMsgs ++
          (((numeric_sort snapshot).filter
            (fun p => st.lastMillis < millis_to_nat p.1)).filter
              (fun p => !(p.2.contains "ERROR"))).map (fun p => p.2.drop 1))
        (st.errorMsgs ++
          (((numeric_sort snapshot).filter
            (fun p => st.lastMillis < millis_to_nat p.1)).filter
              (fun p => p.2.contains "ERROR")).map (fun p => p.2.drop 1))
        (((numeric_sort snapshot).filter
            (fun p => st.lastMillis < millis_to_nat p.1)).foldl
          (fun m p => max m (millis_to_nat p.1)) st.lastMillis),
       ((numeric_sort snapshot).filter
          (fun p => st.lastMillis < millis_to_nat p.1)).map
         (fun p => Event.onMessage p.2)) := by
  have heq : check_messages true (some snapshot) st =
      process_messages true (sorted_items snapshot) st := by
    unfold check_messages try_load_json
    simp only [Option.getD_some]
    rw [if_pos (by simpa using List.length_pos.mpr hne)]
  have hsort_eq : sorted_items snapshot = numeric_sort snapshot := by
    unfold sorted_items numeric_sort
    exact insertionSort_congr _ _ snapshot hcoh
  haveI hTot : IsTotal (String × MsgContent)
      (fun a b => millis_to_nat a.1 ≤ millis_to_nat b.1) :=
    ⟨fun a b => Nat.le_total _ _⟩
  haveI hTrans : IsTrans (String × MsgContent)
      (fun a b => millis_to_nat a.1 ≤ millis_to_nat b.1) :=
    ⟨fun _ _ _ h1 h2 => Nat.le_trans h1 h2⟩
  have hsorted : (numeric_sort snapshot).Pairwise
      (fun a b => millis_to_nat a.1 ≤ millis_to_nat b.1) :=
    List.sorted_insertionSort _ snapshot
  have hpne : snapshot.Pairwise
      (fun a b : String × MsgContent => millis_to_nat a.1 ≠ millis_to_nat b.1) := by
    have h1 : snapshot.Pairwise
        (fun a b : String × MsgContent => a.1 ≠ b.1) :=
      (List.pairwise_map).mp hnodup
    refine h1.imp_of_mem ?_
    intro a b ha hb hab hval
    have h2 : a.1.data ≤ b.1.data :=
      (hcoh a ha b hb).mpr (Nat.le_of_eq hval)
    have h3 : b.1.data ≤ a.1.data :=
      (hcoh b hb a ha).mpr (Nat.le_of_eq hval.symm)
    exact hab (string_eq_of_data_eq (le_antisymm h2 h3))
  have hperm : List.Perm (numeric_sort snapshot) snapshot :=
    List.perm_insertionSort _ snapshot
  have hne2 : (numeric_sort snapshot).Pairwise
      (fun a b => millis_to_nat a.1 ≠ millis_to_nat b.1) :=
    (hperm.pairwise_iff (fun h => Ne.symm h)).mpr hpne
  have hstrict : (numeric_sort snapshot).Pairwise
      (fun a b => millis_to_nat a.1 < millis_to_nat b.1) :=
    (hsorted.and hne2).imp (fun h => Nat.lt_of_le_of_ne h.1 h.2)
  rw [heq, hsort_eq, process_messages_sorted (numeric_sort snapshot) st hstrict]

/-- Witness for the amended C5: entries arriving as `[5, 3, 9]` are
processed `3, 5, 9` with final high-water-mark 9. -/
theorem check_messages_numeric_replay_witness :
    check_messages true
      (some [("5", ["INFO", "a"]), ("3", ["INFO", "b"]), ("9", ["ERROR", "c"])])
      (MsgState.mk [] [] 0) =
      (MsgState.mk [["b"], ["a"]] [["c"]] 9,
       [Event.onMessage ["INFO", "b"], Event.onMessage ["INFO", "a"],
        Event.onMessage ["ERROR", "c"]]) :=
  (check_messages_numeric_replay
    [("5", ["INFO", "a"]), ("3", ["INFO", "b"]), ("9", ["ERROR", "c"])]
    (MsgState.mk [] [] 0) (by decide) (by decide) (by decide)).trans (by decide)
